import Mathlib

/-!
# Verification of the pgtools SQL lexer, formatter and analyzer

Shallow embedding of the SQL formatter/analyzer module of the pgtools
repository (the node module `sql-formatter` and the browser bundle's
re-implementation).  JavaScript strings are modelled as `List Char`;
every definition follows the corresponding JavaScript source line by
line.  The node module's functions keep their source names
(`tokenize`, `format`, `analyze`); the browser bundle's variants are
suffixed with `B` (`tokenizeB`, `formatSQL`, `analyzeSQL`).
-/

set_option maxHeartbeats 1000000

namespace PgTools

/-- Shorthand: the characters of a string literal. -/
def toL (s : String) : List Char := s.toList

/-- JavaScript `\s` character class (as used by `/\s/.test`), and the set
removed by `String.prototype.trim`: ASCII whitespace, NBSP, the Unicode
space separators, line separators and the BOM. -/
def jsWhitespace (c : Char) : Bool :=
  c == ' ' || c == '\t' || c == '\n' || c == '\r' || c == '\x0b' || c == '\x0c' ||
  c == ' ' || c == ' ' || (' ' ≤ c && c ≤ ' ') ||
  c == ' ' || c == ' ' || c == ' ' || c == ' ' ||
  c == '　' || c == '﻿'

/-- JavaScript `/\d/`. -/
def isDigit (c : Char) : Bool := '0' ≤ c && c ≤ '9'

/-- JavaScript `/[a-zA-Z_]/` (identifier/word start, also the dollar-quote
tag alphabet). -/
def isWordStart (c : Char) : Bool :=
  ('a' ≤ c && c ≤ 'z') || ('A' ≤ c && c ≤ 'Z') || c == '_'

/-- JavaScript `/[a-zA-Z0-9_]/` (identifier continuation, also `\w`). -/
def isWordChar (c : Char) : Bool := isWordStart c || isDigit c

/-- JavaScript `/[\d.e+-]/` — the permissive numeric-literal scan. -/
def isNumChar (c : Char) : Bool :=
  isDigit c || c == '.' || c == 'e' || c == '+' || c == '-'

/-- `String.prototype.toUpperCase` restricted to the characters the module
feeds it (SQL words over `[a-zA-Z0-9_]` and raw query text): ASCII lower
case letters are mapped to upper case, everything else is unchanged. -/
def jsUpper (c : Char) : Char :=
  if 'a' ≤ c && c ≤ 'z' then Char.ofNat (c.toNat - 32) else c

/-- `trimEnd` on a JavaScript string. -/
def jsTrimEnd (l : List Char) : List Char :=
  (l.reverse.dropWhile jsWhitespace).reverse

/-- `trim` on a JavaScript string. -/
def jsTrim (l : List Char) : List Char :=
  jsTrimEnd (l.dropWhile jsWhitespace)

/-- First index of `p` occurring as a contiguous substring of `l`
(`String.prototype.indexOf`). -/
def findSub (p : List Char) : List Char → Option Nat
  | [] => if p.isPrefixOf ([] : List Char) then some 0 else none
  | c :: r => if p.isPrefixOf (c :: r) then some 0 else (findSub p r).map (· + 1)

/-- Token kinds of the lexer (`type` field of the token objects). -/
inductive TokType where
  | keyword | identifier | string | number | operator | symbol | comment
deriving DecidableEq, Repr

/-- A lexer token `{ type, value }`; keyword tokens additionally carry the
`original` spelling. -/
structure Token where
  type : TokType
  value : List Char
  original : Option (List Char) := none
deriving DecidableEq, Repr

/-- The fixed `KEYWORDS` set of the module (the duplicate `NOT` entry of the
source collapses in a set, and membership below is unaffected). -/
def KEYWORDS : List (List Char) :=
  ["SELECT", "FROM", "WHERE", "AND", "OR", "NOT", "IN", "EXISTS",
   "JOIN", "LEFT", "RIGHT", "INNER", "OUTER", "CROSS", "FULL",
   "ON", "USING", "AS", "CASE", "WHEN", "THEN", "ELSE", "END",
   "INSERT", "INTO", "VALUES", "UPDATE", "SET", "DELETE",
   "CREATE", "TABLE", "ALTER", "DROP", "INDEX", "VIEW",
   "GROUP", "BY", "ORDER", "HAVING", "LIMIT", "OFFSET",
   "UNION", "ALL", "INTERSECT", "EXCEPT", "DISTINCT",
   "WITH", "RECURSIVE", "RETURNING", "CONFLICT", "DO", "NOTHING",
   "BEGIN", "COMMIT", "ROLLBACK", "TRANSACTION",
   "GRANT", "REVOKE", "TRUNCATE", "COPY", "EXPLAIN", "ANALYZE",
   "PRIMARY", "KEY", "FOREIGN", "REFERENCES", "CONSTRAINT",
   "DEFAULT", "NULL", "CHECK", "UNIQUE",
   "IF", "BETWEEN", "LIKE", "ILIKE", "SIMILAR", "IS",
   "TRUE", "FALSE", "ASC", "DESC", "NULLS", "FIRST", "LAST",
   "CAST", "COALESCE", "NULLIF", "GREATEST", "LEAST",
   "COUNT", "SUM", "AVG", "MIN", "MAX", "ARRAY_AGG", "STRING_AGG",
   "OVER", "PARTITION", "WINDOW", "ROW_NUMBER", "RANK", "DENSE_RANK",
   "LAG", "LEAD", "FIRST_VALUE", "LAST_VALUE", "NTH_VALUE",
   "LATERAL", "FETCH", "NEXT", "ROWS", "ONLY", "FOR",
   "LOCK", "SHARE", "NOWAIT", "SKIP", "LOCKED"].map toL

/-- The two-character operator list `['!=','<>','<=','>=','::','||','->','=>']`. -/
def twoCharOps : List (List Char) :=
  [['!', '='], ['<', '>'], ['<', '='], ['>', '='],
   [':', ':'], ['|', '|'], ['-', '>'], ['=', '>']]

/-- Scan of a single-quoted string body: index (relative to the character
after the opening quote) of the closing quote — skipping doubled `''`
escapes — or the length of the remainder when the string is unterminated.
Mirrors the `while (j < s.length) ...` loop of the lexer. -/
def scanStr : List Char → Nat
  | [] => 0
  | '\'' :: '\'' :: r => 2 + scanStr r
  | '\'' :: _ => 0
  | _ :: r => 1 + scanStr r

/-- First index at which `*/` starts, if any (the `s.indexOf('*/', i+2)`
search of the block-comment branch). -/
def starSlashIdx : List Char → Option Nat
  | '*' :: '/' :: _ => some 0
  | _ :: r => (starSlashIdx r).map (· + 1)
  | [] => none

/-- Dollar-quoted string recognition.  For an input starting with `$`:
match the opening marker `$tag$` (`/^\$([a-zA-Z_]*)\$/`), search for the
same marker after it, and return the token text together with the number
of characters consumed; `none` when the marker does not match or never
closes (the lexer then falls through to the later branches). -/
def dollarQuote (s : List Char) : Option (List Char × Nat) :=
  match s with
  | '$' :: rest =>
    let tag := rest.takeWhile isWordStart
    if (rest.drop tag.length).head? == some '$' then
      let tl := tag.length + 2
      let full := '$' :: (tag ++ ['$'])
      match findSub full (s.drop tl) with
      | some erel => some (s.take (erel + tl + tl), erel + tl + tl)
      | none => none
    else none
  | _ => none

/-- One iteration of the lexer's `while` loop, at scan position `c :: rest`:
the emitted token (`none` for skipped whitespace) and the number of
characters consumed *beyond `c`* (so the loop always advances). -/
def lexStep (c : Char) (rest : List Char) : Option Token × Nat :=
  if jsWhitespace c then (none, 0)
  else if c == '-' && rest.head? == some '-' then
    -- single-line comment: up to the next newline (or end of input);
    -- the first newline of the input lies in `rest` since `c = '-'`
    match rest.findIdx? (· == '\n') with
    | some e => (some ⟨.comment, jsTrim (c :: rest.take e), none⟩, e + 1)
    | none => (some ⟨.comment, jsTrim (c :: rest), none⟩, rest.length)
  else if c == '/' && rest.head? == some '*' then
    -- multi-line comment: up to `*/`, or to end of input when unterminated
    match starSlashIdx (rest.drop 1) with
    | some e => (some ⟨.comment, (c :: rest).take (e + 4), none⟩, e + 3)
    | none => (some ⟨.comment, c :: rest, none⟩, rest.length)
  else if c == '\'' then
    -- single-quoted string with doubled '' escapes
    let p := scanStr rest
    (some ⟨.string, (c :: rest).take (p + 2), none⟩, p + 1)
  else if hd : (dollarQuote (c :: rest)).isSome then
    -- dollar-quoted string with a closing marker
    let vk := (dollarQuote (c :: rest)).get hd
    (some ⟨.string, vk.1, none⟩, vk.2 - 1)
  else if isDigit c || (c == '.' && (rest.head?.map isDigit).getD false) then
    -- number: maximal run of /[\d.e+-]/ (c itself is in the class)
    let w := rest.takeWhile isNumChar
    (some ⟨.number, c :: w, none⟩, w.length)
  else if isWordStart c then
    -- identifier or keyword
    let w := rest.takeWhile isWordChar
    let word := c :: w
    let upper := word.map jsUpper
    (if KEYWORDS.contains upper then some ⟨.keyword, upper, some word⟩
     else some ⟨.identifier, word, none⟩, w.length)
  else if c == '"' then
    -- quoted identifier, consumed verbatim to the next '"'
    match rest.findIdx? (· == '"') with
    | some e => (some ⟨.identifier, (c :: rest).take (e + 2), none⟩, e + 1)
    | none => (some ⟨.identifier, c :: rest, none⟩, rest.length)
  else
    -- operators and punctuation: the node module checks the two-character
    -- operators BEFORE the three-character `->>`
    match rest with
    | d :: rest2 =>
      if twoCharOps.contains [c, d] then (some ⟨.operator, [c, d], none⟩, 1)
      else if c == '-' && d == '>' && rest2.head? == some '>' then
        (some ⟨.operator, ['-', '>', '>'], none⟩, 2)
      else (some ⟨.symbol, [c], none⟩, 0)
    | [] => (some ⟨.symbol, [c], none⟩, 0)

/-- One iteration of the browser bundle's lexer loop: identical to
`lexStep` except that the three-character `->>` is checked BEFORE the
two-character operators. -/
def lexStepB (c : Char) (rest : List Char) : Option Token × Nat :=
  if jsWhitespace c then (none, 0)
  else if c == '-' && rest.head? == some '-' then
    match rest.findIdx? (· == '\n') with
    | some e => (some ⟨.comment, jsTrim (c :: rest.take e), none⟩, e + 1)
    | none => (some ⟨.comment, jsTrim (c :: rest), none⟩, rest.length)
  else if c == '/' && rest.head? == some '*' then
    match starSlashIdx (rest.drop 1) with
    | some e => (some ⟨.comment, (c :: rest).take (e + 4), none⟩, e + 3)
    | none => (some ⟨.comment, c :: rest, none⟩, rest.length)
  else if c == '\'' then
    let p := scanStr rest
    (some ⟨.string, (c :: rest).take (p + 2), none⟩, p + 1)
  else if hd : (dollarQuote (c :: rest)).isSome then
    let vk := (dollarQuote (c :: rest)).get hd
    (some ⟨.string, vk.1, none⟩, vk.2 - 1)
  else if isDigit c || (c == '.' && (rest.head?.map isDigit).getD false) then
    let w := rest.takeWhile isNumChar
    (some ⟨.number, c :: w, none⟩, w.length)
  else if isWordStart c then
    let w := rest.takeWhile isWordChar
    let word := c :: w
    let upper := word.map jsUpper
    (if KEYWORDS.contains upper then some ⟨.keyword, upper, some word⟩
     else some ⟨.identifier, word, none⟩, w.length)
  else if c == '"' then
    match rest.findIdx? (· == '"') with
    | some e => (some ⟨.identifier, (c :: rest).take (e + 2), none⟩, e + 1)
    | none => (some ⟨.identifier, c :: rest, none⟩, rest.length)
  else
    match rest with
    | d :: rest2 =>
      if c == '-' && d == '>' && rest2.head? == some '>' then
        (some ⟨.operator, ['-', '>', '>'], none⟩, 2)
      else if twoCharOps.contains [c, d] then (some ⟨.operator, [c, d], none⟩, 1)
      else (some ⟨.symbol, [c], none⟩, 0)
    | [] => (some ⟨.symbol, [c], none⟩, 0)

/-- The lexer loop with explicit fuel (structural recursion; each
iteration consumes at least the character `c`, so `s.length` fuel always
suffices — see `tokF_fuel`). -/
def tokF : Nat → List Char → List Token
  | _, [] => []
  | 0, _ :: _ => []
  | fuel + 1, c :: rest =>
    let more := tokF fuel (rest.drop (lexStep c rest).2)
    ((lexStep c rest).1.elim more fun t => t :: more)

/-- Browser-bundle lexer loop. -/
def tokFB : Nat → List Char → List Token
  | _, [] => []
  | 0, _ :: _ => []
  | fuel + 1, c :: rest =>
    let more := tokFB fuel (rest.drop (lexStepB c rest).2)
    ((lexStepB c rest).1.elim more fun t => t :: more)

/-- `tokenize` of the node module. -/
def tokenize (s : List Char) : List Token := tokF s.length s

/-- `tokenize` of the browser bundle. -/
def tokenizeB (s : List Char) : List Token := tokFB s.length s

/-! ## The formatter -/

/-- The fixed `CLAUSE_KEYWORDS` set: major clause keywords that get their
own line. -/
def CLAUSE_KEYWORDS : List (List Char) :=
  ["SELECT", "FROM", "WHERE", "JOIN", "LEFT JOIN", "RIGHT JOIN",
   "INNER JOIN", "OUTER JOIN", "CROSS JOIN", "FULL JOIN",
   "FULL OUTER JOIN", "LEFT OUTER JOIN", "RIGHT OUTER JOIN",
   "GROUP BY", "ORDER BY", "HAVING", "LIMIT", "OFFSET",
   "UNION", "UNION ALL", "INTERSECT", "EXCEPT",
   "INSERT INTO", "VALUES", "UPDATE", "SET", "DELETE FROM",
   "ON", "USING", "RETURNING", "WITH", "AND", "OR",
   "ON CONFLICT", "DO", "WINDOW"].map toL

/-- The formatter's loop state: `out`, `indent`, `lineStart`, `prevToken`,
`parenDepth`.  The two counters are JavaScript numbers, modelled as `Int`
so that the non-negativity invariants are meaningful statements. -/
structure FmtState where
  out : List Char
  indent : Int
  lineStart : Bool
  prevToken : Option Token
  parenDepth : Int
deriving Repr, DecidableEq

/-- State at the top of `format`: `out = '', indent = 0, lineStart = true,
prevToken = null, parenDepth = 0`. -/
def initState : FmtState := ⟨[], 0, true, none, 0⟩

/-- `'  '.repeat(indent)`.  (`String.prototype.repeat` demands a
non-negative count; `indent` never goes negative, see the trace
invariant.) -/
def indentSpaces (n : Int) : List Char := List.replicate (2 * n.toNat) ' '

/-- The formatter's `newline()` helper:
`out = out.trimEnd(); out += '\n' + '  '.repeat(indent); lineStart = true`. -/
def newline (st : FmtState) : FmtState :=
  { st with out := jsTrimEnd st.out ++ '\n' :: indentSpaces st.indent, lineStart := true }

/-- The formatter's `space()` helper. -/
def space (st : FmtState) : FmtState :=
  if !st.lineStart && !st.out.isEmpty && st.out.getLast? != some ' ' &&
     st.out.getLast? != some '\n' && st.out.getLast? != some '(' then
    { st with out := st.out ++ [' '] }
  else st

/-- Compound-keyword lookahead: when `t` and the next token are both
keywords whose pair is a clause phrase, the pair is consumed as a unit. -/
def compoundOf (t : Token) (next : Option Token) : Option (List Char) :=
  match next with
  | some n =>
    if t.type == .keyword && n.type == .keyword then
      let pair := t.value ++ ' ' :: n.value
      if CLAUSE_KEYWORDS.contains pair then some pair else none
    else none
  | none => none

def isCompound (t1 t2 : Token) : Bool := (compoundOf t1 (some t2)).isSome

/-- `t.value || t.original || ''` (JavaScript falsiness on strings). -/
def jsOr (a b : List Char) : List Char := if a.isEmpty then b else a

/-- One iteration of the node formatter's token loop on token `t` with
lookahead `next`, a line-by-line transcription of the `for` body of
`format`. -/
def fmtStep (t : Token) (next : Option Token) (st : FmtState) : FmtState :=
  let compound := compoundOf t next
  if t.type == .comment then
    let s1 := newline st
    let s2 := newline { s1 with out := s1.out ++ t.value }
    { s2 with prevToken := some t }
  else if t.type == .symbol && t.value == ['('] then
    let s1 := if (st.prevToken.any fun p => p.type == .identifier || p.type == .keyword)
        then st else space st
    let s2 := { s1 with out := s1.out ++ ['('], parenDepth := s1.parenDepth + 1 }
    let s3 := if (next.any fun n => n.type == .keyword && n.value == toL "SELECT")
        then newline { s2 with indent := s2.indent + 1 } else s2
    { s3 with prevToken := some t, lineStart := false }
  else if t.type == .symbol && t.value == [')'] then
    let s1 := { st with parenDepth := if 0 < st.parenDepth then st.parenDepth - 1 else st.parenDepth }
    let s2 := if (s1.prevToken.any fun p => p.type == .keyword &&
          (p.value == toL "LIMIT" || p.value == toL "OFFSET" ||
           p.value == toL "ASC" || p.value == toL "DESC")) then
        newline { s1 with indent := max 0 (s1.indent - 1) }
      else s1
    { s2 with out := s2.out ++ [')'], prevToken := some t, lineStart := false }
  else if t.type == .symbol && t.value == [','] then
    let s1 := { st with out := st.out ++ [','] }
    let s2 := if s1.parenDepth == 0 then
        let n := newline s1
        { n with out := n.out ++ toL "  " }
      else { s1 with out := s1.out ++ [' '] }
    { s2 with prevToken := some t, lineStart := false }
  else if t.type == .symbol && t.value == [';'] then
    { st with out := st.out ++ toL ";\n", indent := 0, lineStart := true, prevToken := some t }
  else
    match compound with
    | some pair =>
      let s1 := if st.parenDepth == 0 then
          let s0 := if pair == toL "UNION ALL" || pair == toL "UNION" ||
                       pair == toL "INTERSECT" || pair == toL "EXCEPT" then
              { st with indent := 0 } else st
          newline s0
        else space st
      { s1 with
          out := s1.out ++ pair,
          prevToken := some ⟨.keyword, pair, none⟩,
          lineStart := false }
    | none =>
      if t.type == .keyword then
        let s1 := if CLAUSE_KEYWORDS.contains t.value && st.parenDepth == 0 then
            if t.value == toL "AND" || t.value == toL "OR" then
              let n := newline st
              { n with out := n.out ++ toL "  " ++ t.value }
            else if t.value == toL "SELECT" &&
                (st.prevToken.any fun p => p.type == .keyword && p.value == toL "UNION ALL") then
              -- the source keeps this case separate; its body equals the next one
              let n := newline st
              { n with out := n.out ++ t.value }
            else
              let n := newline st
              { n with out := n.out ++ t.value }
          else
            let sp := space st
            { sp with out := sp.out ++ t.value }
        { s1 with prevToken := some t, lineStart := false }
      else
        let s1 :=
          if t.type == .operator &&
             (t.value == toL "::" || t.value == toL "->" || t.value == toL "->>") then
            { st with out := st.out ++ t.value }
          else if t.type == .symbol && t.value == ['.'] then
            { st with out := jsTrimEnd st.out ++ ['.'] }
          else if (st.prevToken.any fun p => p.type == .symbol && p.value == ['.']) then
            { st with out := st.out ++ jsOr t.value (t.original.getD []) }
          else
            let sp := space st
            { sp with out := sp.out ++ jsOr t.value (t.original.getD []) }
        { s1 with prevToken := some t, lineStart := false }

/-- The node formatter's token loop (a compound clause phrase consumes two
tokens, `i++`). -/
def fmtLoop : List Token → FmtState → FmtState
  | [], st => st
  | [t], st => fmtStep t none st
  | t1 :: t2 :: rest, st =>
    if isCompound t1 t2 then fmtLoop rest (fmtStep t1 (some t2) st)
    else fmtLoop (t2 :: rest) (fmtStep t1 (some t2) st)

/-- The sequence of loop states of `format`: the state before each
iteration together with the final state. -/
def fmtTrace : List Token → FmtState → List FmtState
  | [], st => [st]
  | [t], st => [st, fmtStep t none st]
  | t1 :: t2 :: rest, st =>
    st :: (if isCompound t1 t2 then fmtTrace rest (fmtStep t1 (some t2) st)
           else fmtTrace (t2 :: rest) (fmtStep t1 (some t2) st))

/-- `format(sql)` of the node module: run the loop over the token
sequence, then `return out.trim() + '\n'`. -/
def format (s : List Char) : List Char :=
  jsTrim (fmtLoop (tokenize s) initState).out ++ ['\n']

/-- One iteration of the browser bundle's `formatSQL` loop: identical to
`fmtStep` except that the `)` branch has no `LIMIT/OFFSET/ASC/DESC`
re-indent check, and the keyword branch has no separate
`SELECT`-after-`UNION ALL` case. -/
def fmtStepB (t : Token) (next : Option Token) (st : FmtState) : FmtState :=
  let compound := compoundOf t next
  if t.type == .comment then
    let s1 := newline st
    let s2 := newline { s1 with out := s1.out ++ t.value }
    { s2 with prevToken := some t }
  else if t.type == .symbol && t.value == ['('] then
    let s1 := if (st.prevToken.any fun p => p.type == .identifier || p.type == .keyword)
        then st else space st
    let s2 := { s1 with out := s1.out ++ ['('], parenDepth := s1.parenDepth + 1 }
    let s3 := if (next.any fun n => n.type == .keyword && n.value == toL "SELECT")
        then newline { s2 with indent := s2.indent + 1 } else s2
    { s3 with prevToken := some t, lineStart := false }
  else if t.type == .symbol && t.value == [')'] then
    let s1 := { st with parenDepth := if 0 < st.parenDepth then st.parenDepth - 1 else st.parenDepth }
    { s1 with out := s1.out ++ [')'], prevToken := some t, lineStart := false }
  else if t.type == .symbol && t.value == [','] then
    let s1 := { st with out := st.out ++ [','] }
    let s2 := if s1.parenDepth == 0 then
        let n := newline s1
        { n with out := n.out ++ toL "  " }
      else { s1 with out := s1.out ++ [' '] }
    { s2 with prevToken := some t, lineStart := false }
  else if t.type == .symbol && t.value == [';'] then
    { st with out := st.out ++ toL ";\n", indent := 0, lineStart := true, prevToken := some t }
  else
    match compound with
    | some pair =>
      let s1 := if st.parenDepth == 0 then
          let s0 := if pair == toL "UNION ALL" || pair == toL "UNION" ||
                       pair == toL "INTERSECT" || pair == toL "EXCEPT" then
              { st with indent := 0 } else st
          newline s0
        else space st
      { s1 with
          out := s1.out ++ pair,
          prevToken := some ⟨.keyword, pair, none⟩,
          lineStart := false }
    | none =>
      if t.type == .keyword then
        let s1 := if CLAUSE_KEYWORDS.contains t.value && st.parenDepth == 0 then
            if t.value == toL "AND" || t.value == toL "OR" then
              let n := newline st
              { n with out := n.out ++ toL "  " ++ t.value }
            else
              let n := newline st
              { n with out := n.out ++ t.value }
          else
            let sp := space st
            { sp with out := sp.out ++ t.value }
        { s1 with prevToken := some t, lineStart := false }
      else
        let s1 :=
          if t.type == .operator &&
             (t.value == toL "::" || t.value == toL "->" || t.value == toL "->>") then
            { st with out := st.out ++ t.value }
          else if t.type == .symbol && t.value == ['.'] then
            { st with out := jsTrimEnd st.out ++ ['.'] }
          else if (st.prevToken.any fun p => p.type == .symbol && p.value == ['.']) then
            { st with out := st.out ++ jsOr t.value (t.original.getD []) }
          else
            let sp := space st
            { sp with out := sp.out ++ jsOr t.value (t.original.getD []) }
        { s1 with prevToken := some t, lineStart := false }

def fmtLoopB : List Token → FmtState → FmtState
  | [], st => st
  | [t], st => fmtStepB t none st
  | t1 :: t2 :: rest, st =>
    if isCompound t1 t2 then fmtLoopB rest (fmtStepB t1 (some t2) st)
    else fmtLoopB (t2 :: rest) (fmtStepB t1 (some t2) st)

/-- `formatSQL(sql)` of the browser bundle. -/
def formatSQL (s : List Char) : List Char :=
  jsTrim (fmtLoopB (tokenizeB s) initState).out ++ ['\n']

/-! ## The analyzer -/

/-- Finding severity. -/
inductive Level where
  | info | warn | error
deriving DecidableEq, Repr

/-- One reported issue `{ level, message }`. -/
structure Finding where
  level : Level
  message : List Char
deriving DecidableEq, Repr

def isKw (t : Token) (k : String) : Bool := t.type == .keyword && t.value == toL k

def isSym (t : Token) (c : Char) : Bool := t.type == .symbol && t.value == [c]

/-- Decimal digit character of `d % 10`. -/
def digitChar (d : Nat) : Char := Char.ofNat (48 + d % 10)

def natDigitsAux : Nat → Nat → List Char → List Char
  | 0, _, acc => acc
  | fuel + 1, n, acc =>
    if n < 10 then digitChar n :: acc
    else natDigitsAux fuel (n / 10) (digitChar (n % 10) :: acc)

/-- Decimal representation of a natural number, as interpolated into the
analyzer's template literals. -/
def natDigits (n : Nat) : List Char := natDigitsAux (n + 1) n []

/-- `parseInt` on a captured digit string. -/
def digitsToNat (ds : List Char) : Nat :=
  ds.foldl (fun a c => 10 * a + (c.toNat - 48)) 0

/-- Case-insensitive literal match at the start of `l` (`p` is given in
upper case; `/i` on ASCII). -/
def ciPrefixOf (p l : List Char) : Bool :=
  p.isPrefixOf ((l.take p.length).map jsUpper)

/-- `String.prototype.includes`. -/
def includes (p l : List Char) : Bool := (findSub p l).isSome

/-- Non-overlapping count of `::` occurrences, the value of
`(sql.match(/::/g) || []).length`. -/
def countCasts : List Char → Nat
  | ':' :: ':' :: r => 1 + countCasts r
  | _ :: r => countCasts r
  | [] => 0

/-- Does `/NOT\s+IN\s*\(/i` match at the start of `l`? -/
def notInAt (l : List Char) : Bool :=
  ciPrefixOf (toL "NOT") l &&
    (let l2 := l.drop 3
     let w := l2.takeWhile jsWhitespace
     !w.isEmpty &&
       (let l3 := l2.drop w.length
        ciPrefixOf (toL "IN") l3 &&
          ((l3.drop 2).dropWhile jsWhitespace).head? == some '('))

/-- `/NOT\s+IN\s*\(/i.test(sql)`. -/
def regexNotIn : List Char → Bool
  | [] => false
  | c :: r => notInAt (c :: r) || regexNotIn r

/-- Digits captured by `/OFFSET\s+(\d+)/i` when it matches at the start
of `l`. -/
def offsetAt (l : List Char) : Option (List Char) :=
  if ciPrefixOf (toL "OFFSET") l then
    let l2 := l.drop 6
    let w := l2.takeWhile jsWhitespace
    if w.isEmpty then none
    else
      let ds := (l2.drop w.length).takeWhile isDigit
      if ds.isEmpty then none else some ds
  else none

/-- First (leftmost) match of `/OFFSET\s+(\d+)/i` in the raw text:
the captured digit string. -/
def firstOffset : List Char → Option (List Char)
  | [] => none
  | c :: r =>
    match offsetAt (c :: r) with
    | some ds => some ds
    | none => firstOffset r

/-- `/\bnow\(\)/i.test(sql)`, scanning with the previous character to
decide the `\b` word boundary. -/
def regexNowFrom : Option Char → List Char → Bool
  | _, [] => false
  | prev, c :: r =>
    ((prev.all fun p => !isWordChar p) && ciPrefixOf (toL "NOW()") (c :: r)) ||
      regexNowFrom (some c) r

/-- Case-insensitive substring test. -/
def ciSub (p : List Char) : List Char → Bool
  | [] => ciPrefixOf p []
  | c :: r => ciPrefixOf p (c :: r) || ciSub p r

/-- `/WHERE[\s\S]*?COALESCE/i.test(sql)`: some `WHERE` is followed
(anywhere later) by `COALESCE`. -/
def whereCoalesce : List Char → Bool
  | [] => false
  | c :: r =>
    (ciPrefixOf (toL "WHERE") (c :: r) && ciSub (toL "COALESCE") ((c :: r).drop 5)) ||
      whereCoalesce r

def selectStarMsg : List Char :=
  toL "SELECT * can cause performance issues and breaks when columns change. Specify columns explicitly."

def updateMsg : List Char :=
  toL "UPDATE without WHERE clause will modify ALL rows in the table."

def deleteMsg : List Char :=
  toL "DELETE without WHERE clause will remove ALL rows from the table."

def likeMsg : List Char :=
  toL "LIKE with leading wildcard ('%...') cannot use a B-tree index. Consider pg_trgm or full-text search."

def notInMsg : List Char :=
  toL "NOT IN with subquery can return unexpected results if subquery returns NULL. Use NOT EXISTS instead."

def orderByMsg : List Char :=
  toL "ORDER BY without LIMIT sorts the entire result set. Add LIMIT if you only need a subset."

def castSuffix : List Char :=
  toL " explicit casts detected. Excessive casting may indicate schema/type mismatches."

def offsetMsgPre : List Char := toL "Large OFFSET ("

def offsetMsgSuf : List Char :=
  toL ") is slow — Postgres must scan and discard rows. Use keyset pagination instead."

def joinSuffix : List Char :=
  toL " JOINs detected. Consider if all are necessary — each join multiplies the planner's work."

def nowMsg : List Char :=
  toL "now() returns the same value for the entire transaction. Use clock_timestamp() if you need wall-clock time."

def coalesceMsg : List Char :=
  toL "COALESCE in WHERE clause may prevent index usage. Consider restructuring with IS NULL / IS NOT NULL."

/-- After a `SELECT` keyword (with at least one following token), is the
next token — skipping one optional `DISTINCT` — the symbol `*`? -/
def starAfter : List Token → Bool
  | [] => false
  | d :: r2 =>
    if isKw d "DISTINCT" then
      match r2 with
      | x :: _ => isSym x '*'
      | [] => false
    else isSym d '*'

/-- The `SELECT *` loop (`for i in 0 .. tokens.length-2`): one finding per
`SELECT` occurrence that projects `*`. -/
def selectStarFindings : List Token → List Finding
  | [] => []
  | t :: rest =>
    (if isKw t "SELECT" && !rest.isEmpty && starAfter rest then
       [⟨.warn, selectStarMsg⟩] else [])
      ++ selectStarFindings rest

/-- The inner scan of the `UPDATE`/`DELETE` rules: is there a `WHERE`
keyword before the next `;` symbol (or end of the token list)? -/
def hasWhereBeforeSemi : List Token → Bool
  | [] => false
  | t :: r =>
    if isSym t ';' then false
    else if isKw t "WHERE" then true
    else hasWhereBeforeSemi r

/-- `UPDATE` without `WHERE`: one finding per `UPDATE` keyword token with
no `WHERE` before the next `;`. -/
def updateFindings : List Token → List Finding
  | [] => []
  | t :: rest =>
    (if isKw t "UPDATE" && !hasWhereBeforeSemi rest then [⟨.error, updateMsg⟩] else [])
      ++ updateFindings rest

/-- `DELETE` without `WHERE`, in a second loop after the `UPDATE` one. -/
def deleteFindings : List Token → List Finding
  | [] => []
  | t :: rest =>
    (if isKw t "DELETE" && !hasWhereBeforeSemi rest then [⟨.error, deleteMsg⟩] else [])
      ++ deleteFindings rest

/-- Leading-wildcard `LIKE` rule; the source tests
`upper.includes("LIKE '%")` twice with `||`, on the upper-cased text. -/
def likeFindings (s : List Char) : List Finding :=
  if includes (toL "LIKE '%") (s.map jsUpper) || includes (toL "LIKE '%") (s.map jsUpper) then
    [⟨.warn, likeMsg⟩]
  else []

def notInFindings (s : List Char) : List Finding :=
  if regexNotIn s then [⟨.warn, notInMsg⟩] else []

def orderByFindings (ts : List Token) : List Finding :=
  if ts.any (isKw · "ORDER") && !ts.any (isKw · "LIMIT") && !ts.any (isKw · "FETCH") then
    [⟨.info, orderByMsg⟩]
  else []

/-- The cast-count rule (node module only). -/
def castFindings (s : List Char) : List Finding :=
  let castCount := countCasts s
  if 3 < castCount then [⟨.info, natDigits castCount ++ castSuffix⟩] else []

/-- The `OFFSET` rule: `test` then `match` on `/OFFSET\s+(\d+)/i` — the
test succeeds exactly when the first match exists. -/
def offsetFindings (s : List Char) : List Finding :=
  match firstOffset s with
  | some ds =>
    if 1000 < digitsToNat ds then [⟨.warn, offsetMsgPre ++ ds ++ offsetMsgSuf⟩] else []
  | none => []

def joinFindings (ts : List Token) : List Finding :=
  let joinCount := ts.countP (fun t => isKw t "JOIN")
  if 5 ≤ joinCount then [⟨.info, natDigits joinCount ++ joinSuffix⟩] else []

def nowFindings (s : List Char) : List Finding :=
  if regexNowFrom none s then [⟨.info, nowMsg⟩] else []

def coalesceFindings (s : List Char) : List Finding :=
  if whereCoalesce s then [⟨.info, coalesceMsg⟩] else []

/-- `analyze(sql)` of the node module: the eleven rules in source order. -/
def analyze (s : List Char) : List Finding :=
  let tokens := tokenize s
  selectStarFindings tokens ++ updateFindings tokens ++ deleteFindings tokens ++
  likeFindings s ++ notInFindings s ++ orderByFindings tokens ++
  castFindings s ++ offsetFindings s ++ joinFindings tokens ++
  nowFindings s ++ coalesceFindings s

/-! ### The browser bundle's analyzer -/

/-- Bundle `UPDATE`/`DELETE` rule: a single loop checking both kinds per
token. -/
def updDelFindingsB : List Token → List Finding
  | [] => []
  | t :: rest =>
    (if isKw t "UPDATE" && !hasWhereBeforeSemi rest then [⟨.error, updateMsg⟩] else []) ++
    (if isKw t "DELETE" && !hasWhereBeforeSemi rest then [⟨.error, deleteMsg⟩] else []) ++
    updDelFindingsB rest

/-- Does `/LIKE\s+'%/i` match at the start of `l` (bundle rule)? -/
def likeAtB (l : List Char) : Bool :=
  ciPrefixOf (toL "LIKE") l &&
    (let l2 := l.drop 4
     let w := l2.takeWhile jsWhitespace
     !w.isEmpty &&
       (let l3 := l2.drop w.length
        l3.head? == some '\'' && (l3.drop 1).head? == some '%'))

def regexLikeB : List Char → Bool
  | [] => false
  | c :: r => likeAtB (c :: r) || regexLikeB r

def likeFindingsB (s : List Char) : List Finding :=
  if regexLikeB s then [⟨.warn, likeMsg⟩] else []

def orderByFindingsB (ts : List Token) : List Finding :=
  if ts.any (isKw · "ORDER") &&
     !ts.any (fun t => t.type == .keyword && (t.value == toL "LIMIT" || t.value == toL "FETCH")) then
    [⟨.info, orderByMsg⟩]
  else []

def offsetMsgSufB : List Char := toL ") is slow. Use keyset pagination instead."

def offsetFindingsB (s : List Char) : List Finding :=
  match firstOffset s with
  | some ds =>
    if 1000 < digitsToNat ds then [⟨.warn, offsetMsgPre ++ ds ++ offsetMsgSufB⟩] else []
  | none => []

def joinSuffixB : List Char := toL " JOINs detected. Consider if all are necessary."

def joinFindingsB (ts : List Token) : List Finding :=
  let joinCount := ts.countP (fun t => isKw t "JOIN")
  if 5 ≤ joinCount then [⟨.info, natDigits joinCount ++ joinSuffixB⟩] else []

def nowMsgB : List Char :=
  toL "now() returns the same value for the entire transaction. Use clock_timestamp() for wall-clock time."

def nowFindingsB (s : List Char) : List Finding :=
  if regexNowFrom none s then [⟨.info, nowMsgB⟩] else []

def coalesceMsgB : List Char := toL "COALESCE in WHERE clause may prevent index usage."

def coalesceFindingsB (s : List Char) : List Finding :=
  if whereCoalesce s then [⟨.info, coalesceMsgB⟩] else []

/-- `analyzeSQL(sql)` of the browser bundle (no cast-count rule). -/
def analyzeSQL (s : List Char) : List Finding :=
  let tokens := tokenizeB s
  selectStarFindings tokens ++ updDelFindingsB tokens ++
  likeFindingsB s ++ notInFindings s ++ orderByFindingsB tokens ++
  offsetFindingsB s ++ joinFindingsB tokens ++
  nowFindingsB s ++ coalesceFindingsB s

/-! ## Predicates used in the claim statements -/

/-- A single-statement input: its token sequence contains no `;` symbol. -/
def singleStatement (x : List Char) : Bool :=
  !(tokenize x).any (fun t => isSym t ';')

/-- Does some branch of the lexer other than the final single-character
fallback fire at scan position `c :: rest`?  (For `$`, only a dollar
quote whose marker matches and closes counts; otherwise the `$` falls
through to the fallback.) -/
def startsRecognized (c : Char) (rest : List Char) : Bool :=
  jsWhitespace c || (c == '-' && rest.head? == some '-') ||
  (c == '/' && rest.head? == some '*') || c == '\'' ||
  (dollarQuote (c :: rest)).isSome ||
  isDigit c || (c == '.' && (rest.head?.map isDigit).getD false) ||
  isWordStart c || c == '"' ||
  (match rest with | d :: _ => twoCharOps.contains [c, d] | [] => false) ||
  (match rest with | d :: e :: _ => c == '-' && d == '>' && e == '>' | _ => false)

/-- Is the formatter's previous token one of the keywords of the `)`
re-indent check (`LIMIT`, `OFFSET`, `ASC`, `DESC`)? -/
def prevIsLimitish (st : FmtState) : Bool :=
  st.prevToken.any fun p => p.type == .keyword &&
    (p.value == toL "LIMIT" || p.value == toL "OFFSET" ||
     p.value == toL "ASC" || p.value == toL "DESC")

/-- `pre` ends at a statement boundary: it is empty or its last token is
the `;` symbol. -/
def stmtStartB (pre : List Token) : Bool :=
  pre.isEmpty || (pre.getLast?.any fun t => isSym t ';')

/-- The input contains a top-level `UPDATE`/`DELETE` statement (the
keyword stands at the start of the input or right after a `;`) with no
`WHERE` keyword before the terminating `;` or end of input. -/
def hasTopLevelNoWhere (s : List Char) (kind : String) : Prop :=
  ∃ pre t post, tokenize s = pre ++ t :: post ∧ stmtStartB pre = true ∧
    isKw t kind = true ∧ hasWhereBeforeSemi post = false

/-- The raw text contains `OFFSET <int>` (upper-case marker, whitespace,
digits) whose integer value exceeds 1000. -/
def containsLargeOffset (s : List Char) : Prop :=
  ∃ pre w ds suf, s = pre ++ toL "OFFSET" ++ w ++ ds ++ suf ∧
    w ≠ [] ∧ (∀ c ∈ w, jsWhitespace c = true) ∧
    ds ≠ [] ∧ (∀ c ∈ ds, isDigit c = true) ∧ 1000 < digitsToNat ds

/-! ## Basic lemmas about the lexer loop -/

theorem tokF_fuel : ∀ (f g : Nat) (s : List Char),
    s.length ≤ f → s.length ≤ g → tokF f s = tokF g s := by
  intro f
  induction f with
  | zero =>
    intro g s hf _
    cases s with
    | nil => cases g <;> rfl
    | cons c rest => simp at hf
  | succ f ih =>
    intro g s hf hg
    cases s with
    | nil => cases g <;> rfl
    | cons c rest =>
      cases g with
      | zero => simp at hg
      | succ g =>
        simp only [tokF]
        have hlen : (rest.drop (lexStep c rest).2).length ≤ rest.length := by
          simp [List.length_drop]
        rw [ih g (rest.drop (lexStep c rest).2)
          (le_trans hlen (Nat.le_of_succ_le_succ hf))
          (le_trans hlen (Nat.le_of_succ_le_succ hg))]

theorem tokFB_fuel : ∀ (f g : Nat) (s : List Char),
    s.length ≤ f → s.length ≤ g → tokFB f s = tokFB g s := by
  intro f
  induction f with
  | zero =>
    intro g s hf _
    cases s with
    | nil => cases g <;> rfl
    | cons c rest => simp at hf
  | succ f ih =>
    intro g s hf hg
    cases s with
    | nil => cases g <;> rfl
    | cons c rest =>
      cases g with
      | zero => simp at hg
      | succ g =>
        simp only [tokFB]
        have hlen : (rest.drop (lexStepB c rest).2).length ≤ rest.length := by
          simp [List.length_drop]
        rw [ih g (rest.drop (lexStepB c rest).2)
          (le_trans hlen (Nat.le_of_succ_le_succ hf))
          (le_trans hlen (Nat.le_of_succ_le_succ hg))]

/-- Step equation of the node lexer: each iteration is one `lexStep`. -/
theorem tokenize_cons (c : Char) (rest : List Char) :
    tokenize (c :: rest) =
      ((lexStep c rest).1.elim (tokenize (rest.drop (lexStep c rest).2))
        fun t => t :: tokenize (rest.drop (lexStep c rest).2)) := by
  show tokF (rest.length + 1) (c :: rest) = _
  simp only [tokF, tokenize]
  rw [tokF_fuel rest.length (rest.drop (lexStep c rest).2).length
    (rest.drop (lexStep c rest).2) (by simp [List.length_drop]) le_rfl]


/-- Step equation of the bundle lexer. -/
theorem tokenizeB_cons (c : Char) (rest : List Char) :
    tokenizeB (c :: rest) =
      ((lexStepB c rest).1.elim (tokenizeB (rest.drop (lexStepB c rest).2))
        fun t => t :: tokenizeB (rest.drop (lexStepB c rest).2)) := by
  show tokFB (rest.length + 1) (c :: rest) = _
  simp only [tokFB, tokenizeB]
  rw [tokFB_fuel rest.length (rest.drop (lexStepB c rest).2).length
    (rest.drop (lexStepB c rest).2) (by simp [List.length_drop]) le_rfl]

/-! ## C1: longest-match lexing of the `->>` operator -/

/-- C1: the claim says the lexer matches operators longest first, so that
a scan position starting `->>` yields the single three-character operator
token `->>`.  The code checks the two-character operators first, so `->`
matches and the trailing `>` becomes a separate symbol token; the
dedicated `->>` branch below it is unreachable (the browser bundle, and
the `format` special-case for a `->>` operator token, both show the
three-character token was the intent).  Evaluation of the code at the
failing input: -/
theorem tokenize_arrowArrow_split :
    tokenize (toL "->>") =
      [⟨.operator, toL "->", none⟩, ⟨.symbol, ['>'], none⟩] := by decide

/-! ## C3: idempotence of the formatter -/

/-- C3 counterexample: `format` is not idempotent on single-statement
inputs.  On `"5 . x"` the `.` branch glues `5` and `.` into `5.`, which
re-lexes as the single number token `5.`, after which the second pass
inserts a space before `x`. -/
theorem format_not_idempotent :
    singleStatement (toL "5 . x") = true ∧
      format (format (toL "5 . x")) ≠ format (toL "5 . x") := by
  exact ⟨by decide, by decide⟩

/-- C3 (amended): `format` factors through `tokenize`, so it is idempotent
on every input (in particular every single-statement input) whose
formatted output re-tokenizes to the same token sequence as the input. -/
theorem format_idem_of_stable_tokens (x : List Char)
    (h : tokenize (format x) = tokenize x) :
    format (format x) = format x := by
  show jsTrim (fmtLoop (tokenize (format x)) initState).out ++ ['\n'] = format x
  rw [h]
  rfl

/-- Witness for C3: a closed instance of the amended idempotence. -/
theorem format_idem_of_stable_tokens_witness :
    format (format (toL "SELECT 1")) = format (toL "SELECT 1") :=
  format_idem_of_stable_tokens (toL "SELECT 1") (by decide)

/-! ## C4: processing of `)` -/

/-- C4 counterexample: processing `)` is claimed never to change the
indent level nor to insert a line break, but when the previous token is
the keyword `LIMIT` (state reached by formatting `"(SELECT 1 LIMIT)"`),
the `)` branch re-indents and breaks the line. -/
theorem closeParen_counterexample :
    (fmtStep ⟨.symbol, [')'], none⟩ none
        ⟨toL "(\n  SELECT 1 LIMIT", 1, false,
         some ⟨.keyword, toL "LIMIT", some (toL "LIMIT")⟩, 1⟩).indent ≠ (1 : Int) ∧
      format (toL "(SELECT 1 LIMIT)") = toL "(\n  SELECT 1 LIMIT\n)\n" := by
  exact ⟨by decide, by decide⟩

/-- C4 (amended): processing `)` decrements the paren depth (floored
at 0).  When the previous token is **not** one of the keywords `LIMIT`,
`OFFSET`, `ASC`, `DESC` it performs no re-indent: the indent level is
unchanged and `)` is emitted with no line break.  When the previous token
is one of those keywords, the indent level drops by one (floored at 0)
and a line break is inserted before `)`. -/
theorem closeParen_step (st : FmtState) (next : Option Token) :
    (fmtStep ⟨.symbol, [')'], none⟩ next st).parenDepth =
        (if 0 < st.parenDepth then st.parenDepth - 1 else st.parenDepth) ∧
    (prevIsLimitish st = false →
      (fmtStep ⟨.symbol, [')'], none⟩ next st).indent = st.indent ∧
      (fmtStep ⟨.symbol, [')'], none⟩ next st).out = st.out ++ [')']) ∧
    (prevIsLimitish st = true →
      (fmtStep ⟨.symbol, [')'], none⟩ next st).indent = max 0 (st.indent - 1) ∧
      (fmtStep ⟨.symbol, [')'], none⟩ next st).out =
        jsTrimEnd st.out ++ '\n' :: indentSpaces (max 0 (st.indent - 1)) ++ [')']) := by
  unfold fmtStep prevIsLimitish
  simp only [newline]
  by_cases hl : (st.prevToken.any fun p => p.type == .keyword &&
      (p.value == toL "LIMIT" || p.value == toL "OFFSET" ||
       p.value == toL "ASC" || p.value == toL "DESC")) = true
  · simp [hl]
  · simp [hl]

/-- Witness for C4: the amended `)` characterization at two concrete
states, one for each side of the previous-token test. -/
theorem closeParen_step_witness :
    (fmtStep ⟨.symbol, [')'], none⟩ none
        ⟨toL "f(x", 0, false, some ⟨.identifier, ['x'], none⟩, 1⟩).out
      = toL "f(x" ++ [')'] ∧
    (fmtStep ⟨.symbol, [')'], none⟩ none
        ⟨toL "(\n  SELECT 1 OFFSET", 1, false,
         some ⟨.keyword, toL "OFFSET", some (toL "OFFSET")⟩, 1⟩).indent
      = max 0 ((1 : Int) - 1) :=
  ⟨((closeParen_step ⟨toL "f(x", 0, false, some ⟨.identifier, ['x'], none⟩, 1⟩ none).2.1
      (by decide)).2,
   ((closeParen_step ⟨toL "(\n  SELECT 1 OFFSET", 1, false,
        some ⟨.keyword, toL "OFFSET", some (toL "OFFSET")⟩, 1⟩ none).2.2
      (by decide)).1⟩

/-! ## C7: trailing whitespace of the formatted output -/

/-- The head of `dropWhile p` does not satisfy `p`. -/
theorem head_dropWhile_false {α : Type} (p : α → Bool) (l : List α) :
    ∀ c, (l.dropWhile p).head? = some c → p c = false := by
  induction l with
  | nil => simp [List.dropWhile]
  | cons c r ih =>
    by_cases h : p c
    · simpa [List.dropWhile, h] using ih
    · intro d hd
      simp [List.dropWhile, h] at hd
      simpa [← hd] using h

/-- The last character of a trimmed string is not whitespace. -/
theorem jsTrim_getLast (l : List Char) :
    ∀ c, (jsTrim l).getLast? = some c → jsWhitespace c = false := by
  unfold jsTrim jsTrimEnd
  rw [List.getLast?_reverse]
  exact head_dropWhile_false jsWhitespace (l.dropWhile jsWhitespace).reverse

/-- C7: for every input the formatted text ends in exactly one trailing
newline: its last character is `'\n'` and the character before it (when
present) is not whitespace. -/
theorem format_single_trailing_newline (s : List Char) :
    (format s).getLast? = some '\n' ∧
      (match (format s).dropLast.getLast? with
       | some c => jsWhitespace c = false
       | none => True) := by
  unfold format
  constructor
  · simp
  · rw [List.dropLast_concat]
    cases h : (jsTrim (fmtLoop (tokenize s) initState).out).getLast? with
    | none => trivial
    | some c => exact jsTrim_getLast (fmtLoop (tokenize s) initState).out c h

/-! ## C2: UPDATE/DELETE without WHERE -/

theorem mem_updateFindings_of_split (pre post : List Token) (t : Token)
    (ht : isKw t "UPDATE" = true) (hw : hasWhereBeforeSemi post = false) :
    Finding.mk .error updateMsg ∈ updateFindings (pre ++ t :: post) := by
  induction pre with
  | nil => simp [updateFindings, ht, hw]
  | cons p pre ih =>
    simp only [List.cons_append, updateFindings]
    exact List.mem_append_right _ ih

theorem mem_deleteFindings_of_split (pre post : List Token) (t : Token)
    (ht : isKw t "DELETE" = true) (hw : hasWhereBeforeSemi post = false) :
    Finding.mk .error deleteMsg ∈ deleteFindings (pre ++ t :: post) := by
  induction pre with
  | nil => simp [deleteFindings, ht, hw]
  | cons p pre ih =>
    simp only [List.cons_append, deleteFindings]
    exact List.mem_append_right _ ih

/-- C2 counterexample: `"UPDATE t SET x = update"` is a single top-level
`UPDATE` statement with no `WHERE`, but `analyze` reports **two** error
findings for it, because the rule fires once per `UPDATE` keyword token
and the right-hand side `update` lexes as a second `UPDATE` keyword. -/
theorem updateNoWhere_two_errors :
    hasTopLevelNoWhere (toL "UPDATE t SET x = update") "UPDATE" ∧
      singleStatement (toL "UPDATE t SET x = update") = true ∧
      ((analyze (toL "UPDATE t SET x = update")).filter
        (fun f => f.level == .error)).length = 2 := by
  refine ⟨⟨[], ⟨.keyword, toL "UPDATE", some (toL "UPDATE")⟩,
    [⟨.identifier, toL "t", none⟩, ⟨.keyword, toL "SET", some (toL "SET")⟩,
     ⟨.identifier, toL "x", none⟩, ⟨.symbol, ['='], none⟩,
     ⟨.keyword, toL "UPDATE", some (toL "update")⟩],
    by decide, by decide, by decide, by decide⟩, by decide, by decide⟩

/-- C2 (amended): for every input containing a top-level `UPDATE`
(resp. `DELETE`) statement with no `WHERE` before the terminating `;` or
end of input, `analyze` contains **at least** one `error` finding whose
message names the statement kind.  (The analyzer emits one finding per
offending `UPDATE`/`DELETE` keyword token — not per statement — so a
statement that repeats the word can produce more than one.) -/
theorem updateDeleteNoWhere_error (s : List Char) :
    (hasTopLevelNoWhere s "UPDATE" → Finding.mk .error updateMsg ∈ analyze s) ∧
    (hasTopLevelNoWhere s "DELETE" → Finding.mk .error deleteMsg ∈ analyze s) := by
  constructor
  · rintro ⟨pre, t, post, hsplit, _, ht, hw⟩
    have hmem : Finding.mk .error updateMsg ∈ updateFindings (tokenize s) := by
      rw [hsplit]
      exact mem_updateFindings_of_split pre post t ht hw
    unfold analyze
    simp only [List.mem_append]
    tauto
  · rintro ⟨pre, t, post, hsplit, _, ht, hw⟩
    have hmem : Finding.mk .error deleteMsg ∈ deleteFindings (tokenize s) := by
      rw [hsplit]
      exact mem_deleteFindings_of_split pre post t ht hw
    unfold analyze
    simp only [List.mem_append]
    tauto

/-- Witness for C2: the amended statement applied at two concrete
offending inputs, one per statement kind. -/
theorem updateDeleteNoWhere_error_witness :
    Finding.mk .error updateMsg ∈ analyze (toL "UPDATE t SET a = 1") ∧
      Finding.mk .error deleteMsg ∈ analyze (toL "DELETE FROM t") := by
  constructor
  · exact (updateDeleteNoWhere_error (toL "UPDATE t SET a = 1")).1
      ⟨[], ⟨.keyword, toL "UPDATE", some (toL "UPDATE")⟩,
        [⟨.identifier, toL "t", none⟩, ⟨.keyword, toL "SET", some (toL "SET")⟩,
         ⟨.identifier, toL "a", none⟩, ⟨.symbol, ['='], none⟩,
         ⟨.number, ['1'], none⟩],
        by decide, by decide, by decide, by decide⟩
  · exact (updateDeleteNoWhere_error (toL "DELETE FROM t")).2
      ⟨[], ⟨.keyword, toL "DELETE", some (toL "DELETE")⟩,
        [⟨.keyword, toL "FROM", some (toL "FROM")⟩, ⟨.identifier, toL "t", none⟩],
        by decide, by decide, by decide, by decide⟩

/-! ## C6: large OFFSET warning -/

/-- C6 counterexample: the rule only inspects the **first**
`OFFSET <int>` match of the raw text.  This input contains
`OFFSET 5000` (> 1000), yet `analyze` returns no finding at all, because
the first match is `OFFSET 5`. -/
theorem largeOffset_first_match_only :
    containsLargeOffset (toL "SELECT a FROM t OFFSET 5; SELECT b FROM t OFFSET 5000") ∧
      analyze (toL "SELECT a FROM t OFFSET 5; SELECT b FROM t OFFSET 5000") = [] := by
  refine ⟨⟨toL "SELECT a FROM t OFFSET 5; SELECT b FROM t ", [' '], toL "5000", [],
    by decide, by decide, by decide, by decide, by decide, by decide⟩, by decide⟩

/-- C6 (amended): whenever the **first** `/OFFSET\s+(\d+)/i` match of the
raw text captures digits whose value exceeds 1000, `analyze` contains a
`warn` finding that embeds exactly the captured digit string in its message.
A later large `OFFSET` can be masked by an earlier small one. -/
theorem largeOffset_warn (s ds : List Char)
    (h1 : firstOffset s = some ds) (h2 : 1000 < digitsToNat ds) :
    Finding.mk .warn (offsetMsgPre ++ ds ++ offsetMsgSuf) ∈ analyze s := by
  have hofs : offsetFindings s = [⟨.warn, offsetMsgPre ++ ds ++ offsetMsgSuf⟩] := by
    unfold offsetFindings
    rw [h1]
    simp [h2]
  unfold analyze
  simp only [List.mem_append]
  have : Finding.mk .warn (offsetMsgPre ++ ds ++ offsetMsgSuf) ∈ offsetFindings s := by
    rw [hofs]; exact List.mem_singleton.mpr rfl
  tauto

/-- Witness for C6 (the spec's own example): formatting
`"SELECT * FROM t OFFSET 5000"` yields a warn finding whose message
contains the literal digit string `5000`. -/
theorem largeOffset_warn_witness :
    Finding.mk .warn (offsetMsgPre ++ toL "5000" ++ offsetMsgSuf) ∈
      analyze (toL "SELECT * FROM t OFFSET 5000") :=
  largeOffset_warn (toL "SELECT * FROM t OFFSET 5000") (toL "5000")
    (by decide) (by decide)

/-! ## C8: state invariants of the formatter loop -/

theorem newline_indent (st : FmtState) : (newline st).indent = st.indent := rfl

theorem newline_parenDepth (st : FmtState) : (newline st).parenDepth = st.parenDepth := rfl

theorem space_indent (st : FmtState) : (space st).indent = st.indent := by
  unfold space
  split <;> rfl

theorem space_parenDepth (st : FmtState) : (space st).parenDepth = st.parenDepth := by
  unfold space
  split <;> rfl

/-- Every branch of the formatter step preserves non-negativity of the
indent level and the paren depth. -/
theorem fmtStep_nonneg (t : Token) (next : Option Token) (st : FmtState)
    (hi : 0 ≤ st.indent) (hp : 0 ≤ st.parenDepth) :
    0 ≤ (fmtStep t next st).indent ∧ 0 ≤ (fmtStep t next st).parenDepth := by
  simp only [fmtStep, newline, space]
  rcases hc : compoundOf t next with _ | pair <;>
    simp only [hc] <;>
    constructor <;>
    simp only [apply_ite FmtState.indent, apply_ite FmtState.parenDepth] <;>
    (repeat' split) <;> omega

/-- The invariant propagates along the whole loop trace. -/
theorem fmtTrace_nonneg : ∀ (ts : List Token) (st : FmtState),
    0 ≤ st.indent → 0 ≤ st.parenDepth →
    ∀ x ∈ fmtTrace ts st, 0 ≤ x.indent ∧ 0 ≤ x.parenDepth
  | [], st, hi, hp => by
    intro x hx
    simp only [fmtTrace, List.mem_singleton] at hx
    subst hx
    exact ⟨hi, hp⟩
  | [t], st, hi, hp => by
    intro x hx
    simp only [fmtTrace, List.mem_cons, List.mem_singleton, List.not_mem_nil,
      or_false] at hx
    rcases hx with rfl | rfl
    · exact ⟨hi, hp⟩
    · exact fmtStep_nonneg t none st hi hp
  | t1 :: t2 :: rest, st, hi, hp => by
    intro x hx
    simp only [fmtTrace, List.mem_cons] at hx
    rcases hx with rfl | hx
    · exact ⟨hi, hp⟩
    · have hs := fmtStep_nonneg t1 (some t2) st hi hp
      split at hx
      · exact fmtTrace_nonneg rest _ hs.1 hs.2 x hx
      · exact fmtTrace_nonneg (t2 :: rest) _ hs.1 hs.2 x hx

/-- C8: at every step of the formatter's token loop — on every input —
the paren depth and the indent level are non-negative. -/
theorem format_loop_invariants (s : List Char) :
    ∀ st ∈ fmtTrace (tokenize s) initState, 0 ≤ st.indent ∧ 0 ≤ st.parenDepth :=
  fmtTrace_nonneg (tokenize s) initState (by decide) (by decide)

/-- Witness for C8: the invariant instantiated at a concrete input and a
concrete reachable loop state. -/
theorem format_loop_invariants_witness :
    0 ≤ (fmtLoop (tokenize (toL "SELECT 1")) initState).indent ∧
      0 ≤ (fmtLoop (tokenize (toL "SELECT 1")) initState).parenDepth :=
  format_loop_invariants (toL "SELECT 1")
    (fmtLoop (tokenize (toL "SELECT 1")) initState) (by decide)

/-! ## C9: totality of the lexer -/

/-- When no branch of the lexer matches, the step emits the
single-character symbol fallback and consumes exactly that character. -/
theorem lexStep_unrecognized (c : Char) (rest : List Char)
    (h : startsRecognized c rest = false) :
    lexStep c rest = (some ⟨.symbol, [c], none⟩, 0) := by
  simp only [startsRecognized, Bool.or_eq_false_iff] at h
  obtain ⟨⟨⟨⟨⟨⟨⟨⟨⟨⟨h1, h2⟩, h3⟩, h4⟩, h5⟩, h6⟩, h7⟩, h8⟩, h9⟩, h10⟩, h11⟩ := h
  rw [lexStep]
  rw [if_neg (by simp [h1]), if_neg (by simp [h2]), if_neg (by simp [h3]),
    if_neg (by simp [h4]), dif_neg (by simp [h5]), if_neg (by simp [h6, h7]),
    if_neg (by simp [h8]), if_neg (by simp [h9])]
  cases rest with
  | nil => rfl
  | cons d rest2 =>
    cases rest2 with
    | nil =>
      dsimp only
      rw [if_neg (by simpa using h10), if_neg (by simp)]
    | cons e rest3 =>
      dsimp only
      rw [if_neg (by simpa using h10), if_neg (by simpa using h11)]

/-- Each loop iteration consumes at least one character, so the token
sequence is never longer than the input. -/
theorem tokF_length : ∀ (f : Nat) (s : List Char), (tokF f s).length ≤ s.length := by
  intro f
  induction f with
  | zero => intro s; cases s <;> simp [tokF]
  | succ f ih =>
    intro s
    cases s with
    | nil => simp [tokF]
    | cons c rest =>
      simp only [tokF]
      have hd : (rest.drop (lexStep c rest).2).length ≤ rest.length := by
        simp [List.length_drop]
      have hr := le_trans (ih (rest.drop (lexStep c rest).2)) hd
      cases (lexStep c rest).1 with
      | none =>
        simp only [Option.elim]
        exact le_trans hr (by simp)
      | some tok =>
        simp only [Option.elim, List.length_cons]
        omega

/-- C9: the lexer is total — it is a function defined on every finite
input, emits a finite token sequence (at most one token per input
character), and any character at which no lexical form starts is emitted
as a single-character symbol token while the scan advances past it. -/
theorem tokenize_total (s : List Char) :
    (tokenize s).length ≤ s.length ∧
      (∀ c rest, s = c :: rest → startsRecognized c rest = false →
        tokenize s = ⟨.symbol, [c], none⟩ :: tokenize rest) := by
  constructor
  · exact tokF_length s.length s
  · intro c rest hs hrec
    subst hs
    rw [tokenize_cons, lexStep_unrecognized c rest hrec]
    rfl

/-- Witness for C9: the fallback at the unrecognized character `@`. -/
theorem tokenize_total_witness :
    tokenize (toL "@a") = ⟨.symbol, ['@'], none⟩ :: tokenize (toL "a") :=
  (tokenize_total (toL "@a")).2 '@' (toL "a") (by decide) (by decide)


/-! ## C10: the cast-count rule -/

theorem isDigit_digitChar (d : Nat) : isDigit (digitChar d) = true := by
  unfold digitChar
  have h : d % 10 < 10 := Nat.mod_lt _ (by omega)
  revert h
  generalize d % 10 = m
  intro h
  interval_cases m <;> decide

theorem natDigitsAux_all : ∀ (fuel n : Nat) (acc : List Char),
    (∀ c ∈ acc, isDigit c = true) →
    ∀ c ∈ natDigitsAux fuel n acc, isDigit c = true := by
  intro fuel
  induction fuel with
  | zero => intro n acc hacc; simpa [natDigitsAux] using hacc
  | succ fuel ih =>
    intro n acc hacc c hc
    simp only [natDigitsAux] at hc
    split at hc
    · rcases List.mem_cons.mp hc with rfl | hmem
      · exact isDigit_digitChar n
      · exact hacc c hmem
    · refine ih _ _ ?_ c hc
      intro x hx
      rcases List.mem_cons.mp hx with rfl | hmem
      · exact isDigit_digitChar _
      · exact hacc x hmem

theorem natDigits_all (n : Nat) : ∀ c ∈ natDigits n, isDigit c = true :=
  natDigitsAux_all (n + 1) n [] (by simp)

theorem natDigitsAux_eq_nil : ∀ (fuel n : Nat) (acc : List Char),
    natDigitsAux fuel n acc = [] → acc = [] ∧ fuel = 0 := by
  intro fuel
  induction fuel with
  | zero => intro n acc h; exact ⟨h, rfl⟩
  | succ fuel ih =>
    intro n acc h
    simp only [natDigitsAux] at h
    split at h
    · exact absurd h (by simp)
    · exact absurd (ih _ _ h).1 (by simp)

theorem natDigits_ne_nil (n : Nat) : natDigits n ≠ [] := by
  intro h
  exact Nat.succ_ne_zero n (natDigitsAux_eq_nil (n + 1) n [] h).2

/-- A message starting with a non-digit character is never a digit string
followed by a tail. -/
theorem natDigits_append_ne (n : Nat) (tail msg : List Char) (c : Char)
    (hh : msg.head? = some c) (hc : isDigit c = false) :
    natDigits n ++ tail ≠ msg := by
  intro h
  obtain ⟨d, ds, hds⟩ := List.exists_cons_of_ne_nil (natDigits_ne_nil n)
  have hd : isDigit d = true :=
    natDigits_all n d (by rw [hds]; exact List.mem_cons_self _ _)
  rw [hds, List.cons_append] at h
  rw [← h] at hh
  simp only [List.head?_cons, Option.some.injEq] at hh
  rw [← hh] at hc
  simp [hd] at hc

theorem takeWhile_append_all {α : Type} {p : α → Bool} {l r : List α}
    (h : ∀ a ∈ l, p a = true) :
    (l ++ r).takeWhile p = l ++ r.takeWhile p := by
  induction l with
  | nil => simp
  | cons a l ih =>
    simp only [List.cons_append, List.takeWhile_cons, h a (List.mem_cons_self a l)]
    simp [ih (fun x hx => h x (List.mem_cons_of_mem a hx))]

/-- The cast-count message and the join-count message never coincide,
whatever the two counts. -/
theorem castMsg_ne_joinMsg (n j : Nat) :
    natDigits n ++ castSuffix ≠ natDigits j ++ joinSuffix := by
  intro h
  have h1 : (natDigits n ++ castSuffix).takeWhile isDigit = natDigits n := by
    rw [takeWhile_append_all (natDigits_all n),
      show castSuffix.takeWhile isDigit = [] from by decide, List.append_nil]
  have h2 : (natDigits j ++ joinSuffix).takeWhile isDigit = natDigits j := by
    rw [takeWhile_append_all (natDigits_all j),
      show joinSuffix.takeWhile isDigit = [] from by decide, List.append_nil]
  have hdig : natDigits n = natDigits j := by rw [← h1, h, h2]
  rw [hdig] at h
  exact absurd (List.append_cancel_left h) (by decide)

theorem mem_selectStarFindings_eq : ∀ (ts : List Token) (f : Finding),
    f ∈ selectStarFindings ts → f = ⟨.warn, selectStarMsg⟩ := by
  intro ts
  induction ts with
  | nil => intro f h; simp [selectStarFindings] at h
  | cons t rest ih =>
    intro f h
    simp only [selectStarFindings] at h
    rcases List.mem_append.mp h with h1 | h1
    · split at h1 <;> simp_all
    · exact ih f h1

theorem mem_updateFindings_eq : ∀ (ts : List Token) (f : Finding),
    f ∈ updateFindings ts → f = ⟨.error, updateMsg⟩ := by
  intro ts
  induction ts with
  | nil => intro f h; simp [updateFindings] at h
  | cons t rest ih =>
    intro f h
    simp only [updateFindings] at h
    rcases List.mem_append.mp h with h1 | h1
    · split at h1 <;> simp_all
    · exact ih f h1

theorem mem_deleteFindings_eq : ∀ (ts : List Token) (f : Finding),
    f ∈ deleteFindings ts → f = ⟨.error, deleteMsg⟩ := by
  intro ts
  induction ts with
  | nil => intro f h; simp [deleteFindings] at h
  | cons t rest ih =>
    intro f h
    simp only [deleteFindings] at h
    rcases List.mem_append.mp h with h1 | h1
    · split at h1 <;> simp_all
    · exact ih f h1

theorem mem_offsetFindings_level (s : List Char) (f : Finding)
    (h : f ∈ offsetFindings s) : f.level = .warn := by
  simp only [offsetFindings] at h
  split at h
  · split at h <;> simp_all
  · simp at h

/-- C10: the analyzer adds an `info` finding embedding the cast count
exactly when the raw text holds more than 3 (non-overlapping)
occurrences of `::`; with 3 or fewer, no finding of that shape occurs. -/
theorem castCount_info (s : List Char) :
    (3 < countCasts s →
      Finding.mk .info (natDigits (countCasts s) ++ castSuffix) ∈ analyze s) ∧
    (countCasts s ≤ 3 →
      ∀ n, Finding.mk .info (natDigits n ++ castSuffix) ∉ analyze s) := by
  constructor
  · intro h
    have hmem : Finding.mk .info (natDigits (countCasts s) ++ castSuffix) ∈ castFindings s := by
      unfold castFindings
      simp only [h, if_true]
      exact List.mem_singleton.mpr rfl
    unfold analyze
    simp only [List.mem_append]
    tauto
  · intro h n hmem
    simp only [analyze, List.mem_append] at hmem
    rcases hmem with ((((((((((h1 | h2) | h3) | h4) | h5) | h6) | h7) | h8) | h9) | h10) | h11)
    · exact absurd (mem_selectStarFindings_eq _ _ h1) (by simp)
    · exact absurd (mem_updateFindings_eq _ _ h2) (by simp)
    · exact absurd (mem_deleteFindings_eq _ _ h3) (by simp)
    · simp only [likeFindings] at h4
      split at h4 <;> simp_all
    · simp only [notInFindings] at h5
      split at h5 <;> simp_all
    · simp only [orderByFindings] at h6
      split at h6
      · simp only [List.mem_singleton, Finding.mk.injEq] at h6
        exact natDigits_append_ne n castSuffix orderByMsg 'O' (by decide) (by decide) h6.2
      · simp at h6
    · simp only [castFindings] at h7
      rw [if_neg (by omega)] at h7
      simp at h7
    · have := mem_offsetFindings_level s _ h8
      simp at this
    · simp only [joinFindings] at h9
      split at h9
      · simp only [List.mem_singleton, Finding.mk.injEq] at h9
        exact castMsg_ne_joinMsg n _ h9.2
      · simp at h9
    · simp only [nowFindings] at h10
      split at h10
      · simp only [List.mem_singleton, Finding.mk.injEq] at h10
        exact natDigits_append_ne n castSuffix nowMsg 'n' (by decide) (by decide) h10.2
      · simp at h10
    · simp only [coalesceFindings] at h11
      split at h11
      · simp only [List.mem_singleton, Finding.mk.injEq] at h11
        exact natDigits_append_ne n castSuffix coalesceMsg 'C' (by decide) (by decide) h11.2
      · simp at h11

/-- Witness for C10: both sides at concrete inputs — four casts produce
the counted finding, two casts produce none of that shape. -/
theorem castCount_info_witness :
    Finding.mk .info (natDigits (countCasts (toL "a::b ::c ::d ::e")) ++ castSuffix) ∈
        analyze (toL "a::b ::c ::d ::e") ∧
      Finding.mk .info (natDigits 42 ++ castSuffix) ∉ analyze (toL "x::y") :=
  ⟨(castCount_info (toL "a::b ::c ::d ::e")).1 (by decide),
   (castCount_info (toL "x::y")).2 (by decide) 42⟩

/-! ## C5: the browser bundle variant -/

/-- Outside an occurrence of `->>`, the two lexers' steps coincide (they
differ only in the order of the two operator-length checks). -/
theorem lexStep_eq_lexStepB (c : Char) (rest : List Char)
    (h : ¬ (toL "->>" <+: (c :: rest))) :
    lexStep c rest = lexStepB c rest := by
  rw [lexStep, lexStepB]
  by_cases g1 : (jsWhitespace c) = true
  · rw [if_pos g1, if_pos g1]
  rw [if_neg g1, if_neg g1]
  by_cases g2 : (c == '-' && rest.head? == some '-') = true
  · rw [if_pos g2, if_pos g2]
  rw [if_neg g2, if_neg g2]
  by_cases g3 : (c == '/' && rest.head? == some '*') = true
  · rw [if_pos g3, if_pos g3]
  rw [if_neg g3, if_neg g3]
  by_cases g4 : (c == '\'') = true
  · rw [if_pos g4, if_pos g4]
  rw [if_neg g4, if_neg g4]
  by_cases g5 : (dollarQuote (c :: rest)).isSome = true
  · rw [dif_pos g5, dif_pos g5]
  rw [dif_neg g5, dif_neg g5]
  by_cases g6 : (isDigit c || (c == '.' && (rest.head?.map isDigit).getD false)) = true
  · rw [if_pos g6, if_pos g6]
  rw [if_neg g6, if_neg g6]
  by_cases g7 : (isWordStart c) = true
  · rw [if_pos g7, if_pos g7]
  rw [if_neg g7, if_neg g7]
  by_cases g8 : (c == '"') = true
  · rw [if_pos g8, if_pos g8]
  rw [if_neg g8, if_neg g8]
  cases rest with
  | nil => rfl
  | cons d rest2 =>
    dsimp only
    by_cases h3 : (c == '-' && d == '>' && rest2.head? == some '>') = true
    · exfalso
      simp only [Bool.and_eq_true, beq_iff_eq] at h3
      obtain ⟨⟨rfl, rfl⟩, hh⟩ := h3
      cases rest2 with
      | nil => simp at hh
      | cons e r3 =>
        simp only [List.head?_cons, Option.some.injEq] at hh
        subst hh
        exact h ⟨r3, rfl⟩
    · rw [if_neg h3]
      by_cases h2 : twoCharOps.contains [c, d] = true
      · rw [if_pos h2]
        rw [if_neg h3]
      · rw [if_neg h2]
        rw [if_neg h3]

/-- C5 (amended): the node module's lexer and the bundle's lexer agree on
every input that avoids the substring `->>` (where the two operator
checks diverge). -/
theorem tokenize_eq_tokenizeB : ∀ (s : List Char), ¬ (toL "->>" <:+: s) →
    tokenize s = tokenizeB s
  | [], _ => rfl
  | c :: rest, h => by
    rw [tokenize_cons, tokenizeB_cons, ← lexStep_eq_lexStepB c rest (fun hp => h hp.isInfix)]
    have hdrop : ¬ (toL "->>" <:+: rest.drop (lexStep c rest).2) := fun hin =>
      h (hin.trans (((List.drop_suffix _ _).trans (List.suffix_cons c rest)).isInfix))
    rw [tokenize_eq_tokenizeB (rest.drop (lexStep c rest).2) hdrop]
termination_by s _ => s.length
decreasing_by simp [List.length_drop]; omega

/-- C5 counterexample: the bundle is not extensionally the same logic.
On `"a->>b"` the lexers split the operator differently, so the two
formatters disagree; and the node analyzer's cast-count rule is absent
from the bundle, so the two analyzers disagree. -/
theorem bundle_not_equivalent :
    format (toL "a->>b") ≠ formatSQL (toL "a->>b") ∧
      analyze (toL "a::b ::c ::d ::e") ≠ analyzeSQL (toL "a::b ::c ::d ::e") :=
  ⟨by decide, by decide⟩

/-- Witness for C5: tokenizer agreement at a concrete `->>`-free input. -/
theorem tokenize_eq_tokenizeB_witness :
    tokenize (toL "SELECT a -> b FROM t") = tokenizeB (toL "SELECT a -> b FROM t") :=
  tokenize_eq_tokenizeB (toL "SELECT a -> b FROM t") (by decide)

end PgTools
